import Mathlib

/-!
Shallow embedding of the zodchy query math parser
(`zodchy_notations/query/math.py`) and proofs about its specification.

The embedding models Python strings as Lean `String`, Python dicts as
association lists, and Python exceptions as an explicit error type.  The
regular expressions of `_pattern_handler_map` are anchored patterns over a
restricted alphabet; each is translated to an equivalent structural matcher
(the equivalence is argued in the doc comment of each matcher).  The parser
is exercised on values that have already been stripped, so a trailing
newline (the one case where Python's `$` differs from end-of-string) cannot
occur.
-/

namespace Zodchy

/-- Semantic field types that can appear in a types map.  These model the
Python `type` objects used by the source: `int`, `float`, `str`, `bool`,
`datetime.date`, `datetime.datetime` and `uuid.UUID`. -/
inductive FieldType where
  | tInt
  | tFloat
  | tStr
  | tBool
  | tDate
  | tDatetime
  | tUuid
  deriving DecidableEq, Repr

/-- Typed values produced by casting.  `vNone` models Python `None` (which
`_cast_bool` returns for unrecognized tokens).  Floating point values are
carried by their accepted literal text: no claim compares two float values,
so the IEEE representation is not modelled.  `vUuid` carries the normalized
(lowercased, hyphen-free) hex text. -/
inductive Value where
  | vNone
  | vBool (b : Bool)
  | vInt (n : Int)
  | vFloat (lit : String)
  | vStr (s : String)
  | vDate (y m d : Nat)
  | vDatetime (y mo d h mi sec : Nat)
  | vUuid (hex : String)
  deriving DecidableEq, Repr

/-- Comparison operators used as the two sides of a `RANGE`
(`zodchy.codex.query.GT`, `GE`, `LT`, `LE`).  The grammar only ever
places these four operator classes inside a `RANGE`, so they form their
own type here. -/
inductive Bound where
  | GT (v : Value)
  | GE (v : Value)
  | LT (v : Value)
  | LE (v : Value)
  deriving DecidableEq, Repr

/-- The output clause algebra, modelling the `zodchy.codex.query` operator
classes used by the source (`EQ`, `IS`, `NOT`, `LIKE`, `SET`, `RANGE`,
`ASC`, `DESC`, `Limit`, `Offset`). -/
inductive Clause where
  | EQ (v : Value)
  | IS (v : Value)
  | NOT (c : Clause)
  | LIKE (v : Value) (caseSensitive : Bool)
  | SET (vs : List Value)
  | RANGE (left right : Option Bound)
  | ASC (priority : Nat)
  | DESC (priority : Nat)
  | Limit (n : Int)
  | Offset (n : Int)
  deriving DecidableEq, Repr

/-- The `Param` dataclass of the source: a named clause. -/
structure Param where
  name : String
  value : Clause
  deriving DecidableEq, Repr

/-- Python exceptions raised by the parser, one constructor per `raise`
site (plus the implicit failures of builtin constructors and of tuple
unpacking). -/
inductive PErr where
  | undeclaredField (name : String)
  | intervalTypeMismatch (t : FieldType) (name : String)
  | rangeCount (name : String)
  | castError (input : String)
  | keyError (name : String)
  | noneYielded
  | unpackError
  | noSeparator
  deriving DecidableEq, Repr

/-- Result of a Python computation: a value, or a raised exception. -/
inductive Res (α : Type) where
  | ok (a : α)
  | err (e : PErr)
  deriving DecidableEq, Repr

/-- Python `str.split(sep)` for a single-character separator, on the
character list.  Empty input gives one empty component, as in Python. -/
def splitOnChar (sep : Char) : List Char → List (List Char)
  | [] => [[]]
  | c :: rest =>
    match splitOnChar sep rest with
    | [] => [[]]
    | g :: gs => if c = sep then [] :: g :: gs else (c :: g) :: gs

/-- Python `str.split(sep)` for a single-character separator. -/
def pySplit (sep : Char) (s : String) : List String :=
  (splitOnChar sep s.toList).map String.mk

/-- Python whitespace characters recognized by `str.strip()`. -/
def isPySpace (c : Char) : Bool :=
  c = ' ' || c = '\t' || c = '\n' || c = '\r' || c = '\x0b' || c = '\x0c'

/-- Python `str.strip()`: drop leading and trailing whitespace. -/
def pyStrip (s : String) : String :=
  String.mk (((s.toList.dropWhile isPySpace).reverse.dropWhile isPySpace).reverse)

/-- Python `str.lower()` (ASCII case folding suffices for the tokens the
source compares after lowering). -/
def pyLower (s : String) : String :=
  String.mk (s.toList.map Char.toLower)

/-- Decide whether the first list is a prefix of the second. -/
def listIsPrefixOf : List Char → List Char → Bool
  | [], _ => true
  | _ :: _, [] => false
  | a :: as, b :: bs => a = b && listIsPrefixOf as bs

/-- Numeric value of a digit list (most significant digit first). -/
def digitsToNat (ds : List Char) : Nat :=
  ds.foldl (fun a c => a * 10 + (c.toNat - '0'.toNat)) 0

/-- Core of Python `int(str)`: optional sign followed by a nonempty digit
run (the underscore-grouping extension of Python literals is not used by
any claim and is omitted). -/
def pyIntCore (cs : List Char) : Option Int :=
  match cs with
  | '+' :: ds => if ds ≠ [] && ds.all Char.isDigit then some (digitsToNat ds : Int) else none
  | '-' :: ds => if ds ≠ [] && ds.all Char.isDigit then some (-(digitsToNat ds : Int)) else none
  | ds => if ds ≠ [] && ds.all Char.isDigit then some (digitsToNat ds : Int) else none

/-- Python builtin `int(str)`: strips surrounding whitespace itself, then
parses a signed decimal literal; raises `ValueError` on anything else. -/
def pyInt (s : String) : Res Int :=
  match pyIntCore (pyStrip s).toList with
  | some n => Res.ok n
  | none => Res.err (PErr.castError s)

/-- Shape check for Python `float(str)` on plain decimal literals: at
least one digit, only digits and at most one dot besides an optional
leading sign.  Exponent, infinity and NaN forms are not used by any claim
and are omitted. -/
def floatBody (cs : List Char) : Bool :=
  cs.any Char.isDigit && cs.all (fun c => c.isDigit || c = '.') &&
    (cs.filter (fun c => c = '.')).length ≤ 1

/-- Python builtin `float(str)` on plain decimal literals; the value is
carried as its stripped literal text (see `Value.vFloat`). -/
def pyFloatCast (s : String) : Res Value :=
  let t := pyStrip s
  match t.toList with
  | '+' :: ds => if floatBody ds then Res.ok (Value.vFloat t) else Res.err (PErr.castError s)
  | '-' :: ds => if floatBody ds then Res.ok (Value.vFloat t) else Res.err (PErr.castError s)
  | ds => if floatBody ds then Res.ok (Value.vFloat t) else Res.err (PErr.castError s)

/-- Hexadecimal digit test. -/
def isHexDig (c : Char) : Bool :=
  c.isDigit || ('a' ≤ c && c ≤ 'f') || ('A' ≤ c && c ≤ 'F')

/-- Python `uuid.UUID(str)` on the plain hyphenated form: after removing
hyphens, exactly 32 hex digits must remain (the `urn:`/braced forms are
not used by any claim and are omitted). -/
def pyUuid (s : String) : Res Value :=
  let cs := s.toList.filter (fun c => c ≠ '-')
  if cs.length = 32 && cs.all isHexDig then
    Res.ok (Value.vUuid (String.mk (cs.map Char.toLower)))
  else Res.err (PErr.castError s)

/-- Leap-year test of the proleptic Gregorian calendar. -/
def isLeap (y : Nat) : Bool :=
  (y % 4 = 0 && y % 100 ≠ 0) || y % 400 = 0

/-- Number of days of month `m` of year `y`. -/
def daysInMonth (y m : Nat) : Nat :=
  if m = 2 then (if isLeap y then 29 else 28)
  else if m = 4 || m = 6 || m = 9 || m = 11 then 30
  else 31

/-- Validate a calendar date. -/
def validDate (y m d : Nat) : Bool :=
  1 ≤ y && 1 ≤ m && m ≤ 12 && 1 ≤ d && d ≤ daysInMonth y m

/-- Python `datetime.date.fromisoformat`: strict `YYYY-MM-DD` with
calendar validation. -/
def dateFromIso (s : String) : Res Value :=
  match s.toList with
  | [y1, y2, y3, y4, '-', m1, m2, '-', d1, d2] =>
    if [y1, y2, y3, y4, m1, m2, d1, d2].all Char.isDigit then
      let y := digitsToNat [y1, y2, y3, y4]
      let m := digitsToNat [m1, m2]
      let d := digitsToNat [d1, d2]
      if validDate y m d then Res.ok (Value.vDate y m d) else Res.err (PErr.castError s)
    else Res.err (PErr.castError s)
  | _ => Res.err (PErr.castError s)

/-- Validate a wall-clock time. -/
def validTime (h mi sec : Nat) : Bool :=
  h ≤ 23 && mi ≤ 59 && sec ≤ 59

/-- Model of the external `dateutil.parser.parse` dependency, on the
ISO-8601 subset the grammar can produce (the interval character class only
admits digits and `T Z : - , .`): `YYYY-MM-DD` with an optional
`THH:MM:SS` part and an optional trailing `Z`.  A bare date gets midnight
as its time, as dateutil does. -/
def dateutilParse (s : String) : Res Value :=
  match s.toList with
  | [y1, y2, y3, y4, '-', m1, m2, '-', d1, d2] =>
    if [y1, y2, y3, y4, m1, m2, d1, d2].all Char.isDigit then
      let y := digitsToNat [y1, y2, y3, y4]
      let m := digitsToNat [m1, m2]
      let d := digitsToNat [d1, d2]
      if validDate y m d then Res.ok (Value.vDatetime y m d 0 0 0)
      else Res.err (PErr.castError s)
    else Res.err (PErr.castError s)
  | [y1, y2, y3, y4, '-', m1, m2, '-', d1, d2, 'T', h1, h2, ':', n1, n2, ':', s1, s2] =>
    if [y1, y2, y3, y4, m1, m2, d1, d2, h1, h2, n1, n2, s1, s2].all Char.isDigit then
      let y := digitsToNat [y1, y2, y3, y4]
      let m := digitsToNat [m1, m2]
      let d := digitsToNat [d1, d2]
      let h := digitsToNat [h1, h2]
      let mi := digitsToNat [n1, n2]
      let sec := digitsToNat [s1, s2]
      if validDate y m d && validTime h mi sec then Res.ok (Value.vDatetime y m d h mi sec)
      else Res.err (PErr.castError s)
    else Res.err (PErr.castError s)
  | [y1, y2, y3, y4, '-', m1, m2, '-', d1, d2, 'T', h1, h2, ':', n1, n2, ':', s1, s2, 'Z'] =>
    if [y1, y2, y3, y4, m1, m2, d1, d2, h1, h2, n1, n2, s1, s2].all Char.isDigit then
      let y := digitsToNat [y1, y2, y3, y4]
      let m := digitsToNat [m1, m2]
      let d := digitsToNat [d1, d2]
      let h := digitsToNat [h1, h2]
      let mi := digitsToNat [n1, n2]
      let sec := digitsToNat [s1, s2]
      if validDate y m d && validTime h mi sec then Res.ok (Value.vDatetime y m d h mi sec)
      else Res.err (PErr.castError s)
    else Res.err (PErr.castError s)
  | _ => Res.err (PErr.castError s)

/-- The source's `_cast_bool`: strip and lowercase, recognize the two
boolean tokens, and fall through — returning Python `None` — on anything
else.  Note that it never raises. -/
def castBoolFn (value : String) : Res Value :=
  let v := pyLower (pyStrip value)
  if v = "false" then Res.ok (Value.vBool false)
  else if v = "true" then Res.ok (Value.vBool true)
  else Res.ok Value.vNone

/-- Default string construction `type_(value)` per field type, used when
the casting map has no entry for the type.  `bool(str)` is Python
truthiness (nonempty test); calling the `date` and `datetime` class
constructors on a single string raises `TypeError`. -/
def defaultCtor : FieldType → String → Res Value
  | FieldType.tInt, s =>
    match pyInt s with
    | Res.ok n => Res.ok (Value.vInt n)
    | Res.err e => Res.err e
  | FieldType.tFloat, s => pyFloatCast s
  | FieldType.tStr, s => Res.ok (Value.vStr s)
  | FieldType.tBool, s => Res.ok (Value.vBool (s ≠ ""))
  | FieldType.tUuid, s => pyUuid s
  | FieldType.tDate, s => Res.err (PErr.castError s)
  | FieldType.tDatetime, s => Res.err (PErr.castError s)

/-- A casting override function. -/
def CastFn : Type := String → Res Value

/-- The casting-override table (`casting_map`): an association list from
field type to cast function, modelling the Python mapping. -/
def CastingMap : Type := List (FieldType × CastFn)

/-- Dict lookup in a casting map (`self._casting_map.get(type_)`). -/
def lookupCast (t : FieldType) : CastingMap → Option CastFn
  | [] => none
  | (k, f) :: rest => if k = t then some f else lookupCast t rest

/-- The source's `default_casting_map`: overrides for date-time, date and
boolean. -/
def default_casting_map : CastingMap :=
  [(FieldType.tDatetime, dateutilParse), (FieldType.tDate, dateFromIso),
   (FieldType.tBool, castBoolFn)]

/-- The types map: association list from field name to declared type. -/
def TypesMap : Type := List (String × FieldType)

/-- Dict lookup in a types map. -/
def lookupField (name : String) : TypesMap → Option FieldType
  | [] => none
  | (k, t) :: rest => if k = name then some t else lookupField name rest

/-- The source's `interval_types` tuple: the types for which interval
syntax is accepted. -/
def interval_types : List FieldType :=
  [FieldType.tDatetime, FieldType.tDate, FieldType.tInt, FieldType.tFloat]

/-- The source's `Parser._cast`: use the override from the casting map if
one is registered for the type, else the type's default constructor. -/
def cast (cm : CastingMap) (value : String) (t : FieldType) : Res Value :=
  match lookupCast t cm with
  | some f => f value
  | none => defaultCtor t value

/-- The character class `[\dTZ:\-,.]` of the interval patterns. -/
def intervalClass (c : Char) : Bool :=
  c.isDigit || c = 'T' || c = 'Z' || c = ':' || c = '-' || c = ',' || c = '.'

/-- True when no character is a newline: Python's `.` (without `DOTALL`)
never matches a newline. -/
def noNl (cs : List Char) : Bool :=
  cs.all (fun c => c ≠ '\n')

/-- Decompose `cs` as `pre ++ inner ++ [last]` and return `inner`.  This
is the common shape of the anchored bracket patterns: a literal prefix, a
captured middle, and a literal final character. -/
def wrapMatch (pre : List Char) (last : Char) (cs : List Char) : Option (List Char) :=
  if listIsPrefixOf pre cs then
    let rest := cs.drop pre.length
    match rest.getLast? with
    | some y => if y = last then some rest.dropLast else none
    | none => none
  else none

/-- Matcher for the four interval regexes, e.g. `^\(([\dTZ:\-,.]+)\)$`:
the whole value is `o`, then a nonempty run of interval-class characters
(the group), then `c`.  The decomposition is unique because neither
bracket belongs to the class, so this is equivalent to the anchored
regex. -/
def intervalGroup (o c : Char) (s : String) : Option String :=
  match wrapMatch [o] c s.toList with
  | some inner =>
    if inner ≠ [] && inner.all intervalClass then some (String.mk inner) else none
  | none => none

/-- Matcher for the set regexes `^!{(.*)}$` and `^{(.*)}$`: the literal
prefix, a greedy newline-free group, and a closing brace at the very end
of the value. -/
def braceGroup (pre : List Char) (s : String) : Option String :=
  match wrapMatch pre '}' s.toList with
  | some inner => if noNl inner then some (String.mk inner) else none
  | none => none

/-- Matcher for the marker regexes such as `^~{2}(.*)$`: the literal
prefix followed by a newline-free remainder (the group), which runs to
the end of the value. -/
def tailGroup (pre : List Char) (s : String) : Option String :=
  if listIsPrefixOf pre s.toList && noNl (s.toList.drop pre.length) then
    some (String.mk (s.toList.drop pre.length))
  else none

/-- One identifier per entry of `_pattern_handler_map`, in source order:
`null`, `!null`, the four interval bracket forms, the two set forms, the
four like forms, negated equality, and the bare-literal catch-all. -/
inductive PatternId where
  | pNull
  | pNotNull
  | pIntOO
  | pIntCO
  | pIntOC
  | pIntCC
  | pNotSet
  | pSet
  | pLike2
  | pNotLike2
  | pLike1
  | pNotLike1
  | pNotEq
  | pEq
  deriving DecidableEq, Repr

/-- The matcher of each pattern: `re.search` of the source regex against
the value, returning `group(1)`.  All patterns except the catch-all are
anchored on both sides, so search and full match coincide; the unanchored
catch-all `(.*)` matches at position 0 and captures the maximal
newline-free prefix. -/
def matcherOf : PatternId → String → Option String
  | PatternId.pNull, s => if s = "null" then some "null" else none
  | PatternId.pNotNull, s => if s = "!null" then some "!null" else none
  | PatternId.pIntOO, s => intervalGroup '(' ')' s
  | PatternId.pIntCO, s => intervalGroup '[' ')' s
  | PatternId.pIntOC, s => intervalGroup '(' ']' s
  | PatternId.pIntCC, s => intervalGroup '[' ']' s
  | PatternId.pNotSet, s => braceGroup ['!', '{'] s
  | PatternId.pSet, s => braceGroup ['{'] s
  | PatternId.pLike2, s => tailGroup ['~', '~'] s
  | PatternId.pNotLike2, s => tailGroup ['!', '~', '~'] s
  | PatternId.pLike1, s => tailGroup ['~'] s
  | PatternId.pNotLike1, s => tailGroup ['!', '~'] s
  | PatternId.pNotEq, s => tailGroup ['!'] s
  | PatternId.pEq, s => some (String.mk (s.toList.takeWhile (fun c => c ≠ '\n')))

/-- The declared order of `_pattern_handler_map` (Python dicts iterate in
insertion order). -/
def patternList : List PatternId :=
  [PatternId.pNull, PatternId.pNotNull,
   PatternId.pIntOO, PatternId.pIntCO, PatternId.pIntOC, PatternId.pIntCC,
   PatternId.pNotSet, PatternId.pSet,
   PatternId.pLike2, PatternId.pNotLike2, PatternId.pLike1, PatternId.pNotLike1,
   PatternId.pNotEq, PatternId.pEq]

/-- The loop of `_parse_filter_param`: try the patterns in order and
return the first match together with its captured group. -/
def firstMatch : List PatternId → String → Option (PatternId × String)
  | [], _ => none
  | pid :: rest, s =>
    match matcherOf pid s with
    | some g => some (pid, g)
    | none => firstMatch rest s

/-- The source's `Parser._interval`: reject non-interval field types, then
split the group on commas, require exactly two components, and build a
`RANGE` whose sides are the given operators applied to the cast
components — or absent where a component is empty. -/
def interval (cm : CastingMap) (name g : String)
    (ops : (Value → Bound) × (Value → Bound)) (tm : TypesMap) : Res Param :=
  match lookupField name tm with
  | none => Res.err (PErr.keyError name)
  | some t =>
    if t ∈ interval_types then
      match pySplit ',' g with
      | [x, y] =>
        match (if x = "" then Res.ok none else
                match cast cm x t with
                | Res.ok v => Res.ok (some (ops.1 v))
                | Res.err e => Res.err e) with
        | Res.err e => Res.err e
        | Res.ok left =>
          match (if y = "" then Res.ok none else
                  match cast cm y t with
                  | Res.ok v => Res.ok (some (ops.2 v))
                  | Res.err e => Res.err e) with
          | Res.err e => Res.err e
          | Res.ok right => Res.ok (Param.mk name (Clause.RANGE left right))
      | _ => Res.err (PErr.rangeCount name)
    else Res.err (PErr.intervalTypeMismatch t name)

/-- Cast every component of a list, left to right, propagating the first
failure — the evaluation order of the generator inside `SET(*(...))`. -/
def castList (cm : CastingMap) (t : FieldType) : List String → Res (List Value)
  | [] => Res.ok []
  | v :: rest =>
    match cast cm v t with
    | Res.err e => Res.err e
    | Res.ok x =>
      match castList cm t rest with
      | Res.err e => Res.err e
      | Res.ok xs => Res.ok (x :: xs)

/-- The source's `Parser._multitude`: split the group on commas, drop
empty components, cast the rest, wrap in `SET`, and in `NOT` when
inverted. -/
def multitude (cm : CastingMap) (name g : String) (tm : TypesMap)
    (inversion : Bool) : Res Param :=
  match lookupField name tm with
  | none => Res.err (PErr.keyError name)
  | some t =>
    match castList cm t ((pySplit ',' g).filter (fun v => v ≠ "")) with
    | Res.err e => Res.err e
    | Res.ok vs =>
      let v := Clause.SET vs
      Res.ok (Param.mk name (if inversion then Clause.NOT v else v))

/-- The source's `Parser._literal`: cast the group with the field's
declared type, apply the operation, and wrap in `NOT` when inverted. -/
def literal (cm : CastingMap) (name g : String) (operation : Value → Clause)
    (tm : TypesMap) (inversion : Bool) : Res Param :=
  match lookupField name tm with
  | none => Res.err (PErr.keyError name)
  | some t =>
    match cast cm g t with
    | Res.err e => Res.err e
    | Res.ok v =>
      let c := operation v
      Res.ok (Param.mk name (if inversion then Clause.NOT c else c))

/-- The handler bound to each pattern in `_pattern_handler_map`, with the
same operator arguments as the source. -/
def applyHandler (cm : CastingMap) (tm : TypesMap) (pid : PatternId)
    (name g : String) : Res Param :=
  match pid with
  | PatternId.pNull => Res.ok (Param.mk name (Clause.IS Value.vNone))
  | PatternId.pNotNull => Res.ok (Param.mk name (Clause.NOT (Clause.IS Value.vNone)))
  | PatternId.pIntOO => interval cm name g (Bound.GT, Bound.LT) tm
  | PatternId.pIntCO => interval cm name g (Bound.GE, Bound.LT) tm
  | PatternId.pIntOC => interval cm name g (Bound.GT, Bound.LE) tm
  | PatternId.pIntCC => interval cm name g (Bound.GE, Bound.LE) tm
  | PatternId.pNotSet => multitude cm name g tm true
  | PatternId.pSet => multitude cm name g tm false
  | PatternId.pLike2 => literal cm name g (fun v => Clause.LIKE v false) tm false
  | PatternId.pNotLike2 => literal cm name g (fun v => Clause.LIKE v false) tm true
  | PatternId.pLike1 => literal cm name g (fun v => Clause.LIKE v true) tm false
  | PatternId.pNotLike1 => literal cm name g (fun v => Clause.LIKE v true) tm true
  | PatternId.pNotEq => literal cm name g Clause.EQ tm true
  | PatternId.pEq => literal cm name g Clause.EQ tm false

/-- The source's `Parser._parse_filter_param`: require the field to be
declared in the types map, then dispatch on the first matching pattern.
The Python function returns `None` (modelled as `Res.ok none`) when no
pattern matches. -/
def parse_filter_param (cm : CastingMap) (name value : String) (tm : TypesMap) :
    Res (Option Param) :=
  match lookupField name tm with
  | none => Res.err (PErr.undeclaredField name)
  | some _ =>
    match firstMatch patternList value with
    | some (pid, g) =>
      match applyHandler cm tm pid name g with
      | Res.ok p => Res.ok (some p)
      | Res.err e => Res.err e
    | none => Res.ok none

/-- The source's `ParsingSchema` dataclass with its default field
names. -/
structure ParsingSchema where
  order_by : String := "order_by"
  limit : String := "limit"
  offset : String := "offset"
  fieldset : String := "fieldset"
  deriving DecidableEq, Repr

/-- The loop of `_parse_order_param`, carrying the running priority: a
leading `-` selects `DESC` and is stripped from the name, otherwise the
direction is `ASC`; the priority increments after every name. -/
def orderLoop (p : Nat) : List String → List Param
  | [] => []
  | n :: rest =>
    (match n.toList with
     | '-' :: nm => Param.mk (String.mk nm) (Clause.DESC p)
     | _ => Param.mk n (Clause.ASC p)) :: orderLoop (p + 1) rest

/-- The source's `Parser._parse_order_param`: split the raw value on
commas and emit one ordering `Param` per name. -/
def parse_order_param (names : String) : List Param :=
  orderLoop 0 (pySplit ',' names)

/-- One dispatch step of `Parser._parse` for a pair with a present value:
order, limit and offset names are intercepted (limit and offset cast the
raw value with builtin `int`); every other name is a filter field whose
value is stripped and sent to the value grammar.  A filter result of
Python `None` (no pattern matched) would make `__call__` fail when it
reads `.name`, modelled as `noneYielded`. -/
def parsePair (cm : CastingMap) (schema : ParsingSchema) (tm : TypesMap)
    (k v : String) : Res (List Param) :=
  if k = schema.order_by then Res.ok (parse_order_param v)
  else if k = schema.limit then
    match pyInt v with
    | Res.ok n => Res.ok [Param.mk schema.limit (Clause.Limit n)]
    | Res.err e => Res.err e
  else if k = schema.offset then
    match pyInt v with
    | Res.ok n => Res.ok [Param.mk schema.offset (Clause.Offset n)]
    | Res.err e => Res.err e
  else
    match parse_filter_param cm k (pyStrip v) tm with
    | Res.ok (some p) => Res.ok [p]
    | Res.ok none => Res.err PErr.noneYielded
    | Res.err e => Res.err e

/-- `Parser._parse` over the segments of a string query, already split on
the pair separator: unpacking `k, v = pair` demands exactly two parts
(`ValueError` otherwise, modelled as `unpackError`); parts coming from
`str.split` are never `None`, so the `None` skip never fires on this
path. -/
def parseSplitPairs (cm : CastingMap) (schema : ParsingSchema) (tm : TypesMap) :
    List (List String) → Res (List Param)
  | [] => Res.ok []
  | parts :: rest =>
    match parts with
    | [k, v] =>
      match parsePair cm schema tm k v with
      | Res.err e => Res.err e
      | Res.ok ps =>
        match parseSplitPairs cm schema tm rest with
        | Res.err e => Res.err e
        | Res.ok qs => Res.ok (ps ++ qs)
    | _ => Res.err PErr.unpackError

/-- `Parser._parse` over the entries of a mapping query: entries whose
value is `None` are skipped before dispatch. -/
def parseMappingPairs (cm : CastingMap) (schema : ParsingSchema) (tm : TypesMap) :
    List (String × Option String) → Res (List Param)
  | [] => Res.ok []
  | (_, none) :: rest => parseMappingPairs cm schema tm rest
  | (k, some v) :: rest =>
    match parsePair cm schema tm k v with
    | Res.err e => Res.err e
    | Res.ok ps =>
      match parseMappingPairs cm schema tm rest with
      | Res.err e => Res.err e
      | Res.ok qs => Res.ok (ps ++ qs)

/-- `Parser.__call__` on a string query: the query must contain the pair
separator somewhere, is split on the segment separator, each segment is
split on the pair separator, and the resulting params are yielded as
`(name, value)` tuples. -/
def callString (cm : CastingMap) (schema : ParsingSchema) (q : String)
    (tm : TypesMap) : Res (List (String × Clause)) :=
  if q.toList.contains '=' then
    match parseSplitPairs cm schema tm ((pySplit '&' q).map (fun seg => pySplit '=' seg)) with
    | Res.ok ps => Res.ok (ps.map (fun p => (p.name, p.value)))
    | Res.err e => Res.err e
  else Res.err PErr.noSeparator

/-- `Parser.__call__` on a mapping query. -/
def callMapping (cm : CastingMap) (schema : ParsingSchema)
    (q : List (String × Option String)) (tm : TypesMap) : Res (List (String × Clause)) :=
  match parseMappingPairs cm schema tm q with
  | Res.ok ps => Res.ok (ps.map (fun p => (p.name, p.value)))
  | Res.err e => Res.err e

/-- If every pattern before index `i` fails on `s` and the pattern at `i`
matches with group `g`, the scan stops at index `i`. -/
theorem firstMatch_of_first (l : List PatternId) (s : String) (i : Nat)
    (pid : PatternId) (g : String)
    (hi : l.get? i = some pid)
    (hprev : ∀ j, j < i → ∀ q, l.get? j = some q → matcherOf q s = none)
    (hm : matcherOf pid s = some g) :
    firstMatch l s = some (pid, g) := by
  induction l generalizing i with
  | nil => simp [List.get?] at hi
  | cons p rest ih =>
    cases i with
    | zero =>
      have hp : p = pid := by simpa [List.get?] using hi
      subst hp
      simp only [firstMatch]
      rw [hm]
    | succ i2 =>
      have hp : matcherOf p s = none := hprev 0 (Nat.succ_pos i2) p rfl
      simp only [firstMatch]
      rw [hp]
      exact ih i2 hi (fun j hj q hq => hprev (j + 1) (Nat.succ_lt_succ hj) q hq)

/-- If some pattern of the list matches, the scan finds a match. -/
theorem firstMatch_isSome_of (l : List PatternId) (s : String)
    (h : ∃ pid ∈ l, (matcherOf pid s).isSome) :
    (firstMatch l s).isSome := by
  induction l with
  | nil =>
    rcases h with ⟨pid, hmem, _⟩
    simp at hmem
  | cons p rest ih =>
    simp only [firstMatch]
    cases hm : matcherOf p s with
    | some g => simp
    | none =>
      apply ih
      rcases h with ⟨pid, hmem, hsome⟩
      rcases List.mem_cons.mp hmem with h1 | h1
      · subst h1
        rw [hm] at hsome
        simp at hsome
      · exact ⟨pid, h1, hsome⟩

/-- The order loop emits one param per name and keeps the list length. -/
theorem orderLoop_length (p : Nat) (l : List String) :
    (orderLoop p l).length = l.length := by
  induction l generalizing p with
  | nil => rfl
  | cons n rest ih => simp [orderLoop, ih]

/-- Positional description of the order loop: the element at index `i`
comes from the name at index `i` and carries priority `p + i`. -/
theorem orderLoop_get (p i : Nat) (l : List String) :
    (orderLoop p l).get? i = (l.get? i).map (fun n =>
      match n.toList with
      | '-' :: nm => Param.mk (String.mk nm) (Clause.DESC (p + i))
      | _ => Param.mk n (Clause.ASC (p + i))) := by
  induction l generalizing p i with
  | nil => simp [orderLoop]
  | cons n rest ih =>
    cases i with
    | zero => simp [orderLoop, List.get?]
    | succ i2 =>
      simp only [orderLoop, List.get?]
      rw [ih (p + 1) i2]
      have harith : p + 1 + i2 = p + (i2 + 1) := by omega
      rw [harith]

/-- Splitting the segment list distributes over the segment parser, with
the left part's failure or success propagating first. -/
theorem parseSplitPairs_append (cm : CastingMap) (schema : ParsingSchema)
    (tm : TypesMap) (xs ys : List (List String)) :
    parseSplitPairs cm schema tm (xs ++ ys) =
      match parseSplitPairs cm schema tm xs with
      | Res.err e => Res.err e
      | Res.ok ps =>
        match parseSplitPairs cm schema tm ys with
        | Res.err e => Res.err e
        | Res.ok qs => Res.ok (ps ++ qs) := by
  induction xs with
  | nil =>
    simp only [List.nil_append, parseSplitPairs]
    cases parseSplitPairs cm schema tm ys <;> rfl
  | cons parts rest ih =>
    cases parts with
    | nil => rfl
    | cons k l =>
      cases l with
      | nil => rfl
      | cons v l2 =>
        cases l2 with
        | cons w l3 => rfl
        | nil =>
          simp only [List.cons_append, parseSplitPairs, List.append_eq]
          cases parsePair cm schema tm k v with
          | err e => rfl
          | ok ps =>
            rw [ih]
            cases parseSplitPairs cm schema tm rest with
            | err e => rfl
            | ok qs =>
              cases parseSplitPairs cm schema tm ys with
              | err e => rfl
              | ok rs => simp [List.append_assoc]

/-- C1: for a declared field, the value grammar tries the fixed pattern
list in declared order and returns the result of the handler of the first
pattern that matches; later patterns are never consulted. -/
theorem spec_c1 (cm : CastingMap) (tm : TypesMap) (name value : String)
    (i : Nat) (pid : PatternId) (g : String)
    (hname : (lookupField name tm).isSome)
    (hi : patternList.get? i = some pid)
    (hprev : ∀ j, j < i → ∀ q, patternList.get? j = some q → matcherOf q value = none)
    (hm : matcherOf pid value = some g) :
    parse_filter_param cm name value tm =
      match applyHandler cm tm pid name g with
      | Res.ok p => Res.ok (some p)
      | Res.err e => Res.err e := by
  cases hl : lookupField name tm with
  | none => rw [hl] at hname; simp at hname
  | some t =>
    simp only [parse_filter_param, hl]
    rw [firstMatch_of_first patternList value i pid g hi hprev hm]

/-- Witness for C1: the open-interval pattern is the first match for the
value of `amount=(1,3)`, and its handler's result is returned. -/
theorem spec_c1_witness :
    parse_filter_param default_casting_map "amount" "(1,3)" [("amount", FieldType.tInt)] =
      Res.ok (some (Param.mk "amount" (Clause.RANGE (some (Bound.GT (Value.vInt 1)))
        (some (Bound.LT (Value.vInt 3)))))) := by
  have h := spec_c1 default_casting_map [("amount", FieldType.tInt)] "amount" "(1,3)" 2
    PatternId.pIntOO "1,3" (by decide) (by decide)
    (by
      intro j hj q hq
      match j, hj with
      | 0, _ =>
        have hq2 : q = PatternId.pNull := by simpa [patternList, List.get?] using hq.symm
        subst hq2; decide
      | 1, _ =>
        have hq2 : q = PatternId.pNotNull := by simpa [patternList, List.get?] using hq.symm
        subst hq2; decide)
    (by decide)
  rw [h]
  decide

/-- C2: for interval-eligible field types, the interval handler builds a
`RANGE` whose sides are the two given operators applied to the components
cast at the field's declared type, with an absent side for an empty
component; and the four bracket patterns are bound to the operator pairs
(GT,LT), (GE,LT), (GT,LE), (GE,LE) in the handler map. -/
theorem spec_c2 (cm : CastingMap) (tm : TypesMap) (name g a b : String)
    (t : FieldType) (va vb : Value)
    (ht : lookupField name tm = some t)
    (hel : t ∈ interval_types)
    (hsplit : pySplit ',' g = [a, b])
    (hca : a ≠ "" → cast cm a t = Res.ok va)
    (hcb : b ≠ "" → cast cm b t = Res.ok vb) :
    (∀ opL opR : Value → Bound,
      interval cm name g (opL, opR) tm =
        Res.ok (Param.mk name (Clause.RANGE
          (if a = "" then none else some (opL va))
          (if b = "" then none else some (opR vb)))))
    ∧ applyHandler cm tm PatternId.pIntOO name g = interval cm name g (Bound.GT, Bound.LT) tm
    ∧ applyHandler cm tm PatternId.pIntCO name g = interval cm name g (Bound.GE, Bound.LT) tm
    ∧ applyHandler cm tm PatternId.pIntOC name g = interval cm name g (Bound.GT, Bound.LE) tm
    ∧ applyHandler cm tm PatternId.pIntCC name g = interval cm name g (Bound.GE, Bound.LE) tm := by
  refine ⟨?_, rfl, rfl, rfl, rfl⟩
  intro opL opR
  simp only [interval, ht, hsplit]
  rw [if_pos hel]
  by_cases ha : a = ""
  · by_cases hb : b = ""
    · simp [ha, hb]
    · simp [ha, hb, hcb hb]
  · by_cases hb : b = ""
    · simp [ha, hb, hca ha]
    · simp [ha, hb, hca ha, hcb hb]

/-- Witness for C2: `amount=(1,)` on an integer field yields
`RANGE(GT(1), absent)`. -/
theorem spec_c2_witness :
    interval default_casting_map "amount" "1," (Bound.GT, Bound.LT)
      [("amount", FieldType.tInt)] =
      Res.ok (Param.mk "amount" (Clause.RANGE (some (Bound.GT (Value.vInt 1))) none)) := by
  have h := spec_c2 default_casting_map [("amount", FieldType.tInt)] "amount" "1," "1" ""
    FieldType.tInt (Value.vInt 1) (Value.vInt 1) (by decide) (by decide) (by decide)
    (fun _ => by decide) (fun hc => absurd rfl hc)
  exact (h.1 Bound.GT Bound.LT).trans (by decide)

/-- C3 (amended): casting a boolean-typed token trims and lowercases it;
`true` yields `True` and `false` yields `False`, and any other token
yields Python `None` — and the parse call does not fail: the equality
handler wraps the absent value, producing `EQ(None)` for that field. -/
theorem spec_c3 (v name : String) (tm : TypesMap)
    (ht : lookupField name tm = some FieldType.tBool) :
    cast default_casting_map v FieldType.tBool =
      Res.ok (if pyLower (pyStrip v) = "false" then Value.vBool false
              else if pyLower (pyStrip v) = "true" then Value.vBool true
              else Value.vNone)
    ∧ literal default_casting_map name v Clause.EQ tm false =
      Res.ok (Param.mk name (Clause.EQ
        (if pyLower (pyStrip v) = "false" then Value.vBool false
         else if pyLower (pyStrip v) = "true" then Value.vBool true
         else Value.vNone))) := by
  have hcast : cast default_casting_map v FieldType.tBool =
      Res.ok (if pyLower (pyStrip v) = "false" then Value.vBool false
              else if pyLower (pyStrip v) = "true" then Value.vBool true
              else Value.vNone) := by
    show castBoolFn v = _
    unfold castBoolFn
    by_cases h1 : pyLower (pyStrip v) = "false"
    · simp [h1]
    · by_cases h2 : pyLower (pyStrip v) = "true"
      · simp [h1, h2]
      · simp [h1, h2]
  refine ⟨hcast, ?_⟩
  simp only [literal, ht, hcast]
  simp

/-- Witness for C3 (amended): the token `TRUE ` (with trailing space and
upper case) is trimmed and lowercased to `true` and yields `EQ(True)`. -/
theorem spec_c3_witness :
    literal default_casting_map "is_active" "TRUE " Clause.EQ
      [("is_active", FieldType.tBool)] false =
      Res.ok (Param.mk "is_active" (Clause.EQ (Value.vBool true))) := by
  have h := spec_c3 "TRUE " "is_active" [("is_active", FieldType.tBool)] (by decide)
  exact h.2.trans (by decide)

/-- Counterexample for C3 as stated: the boolean token `maybe` is not a
call-terminating cast error — the parse call succeeds and produces a
`Param` carrying `EQ(None)` for the field. -/
theorem spec_c3_counterexample :
    parse_filter_param default_casting_map "is_active" "maybe"
      [("is_active", FieldType.tBool)] =
      Res.ok (some (Param.mk "is_active" (Clause.EQ Value.vNone))) := by
  decide

/-- C4: a filter field absent from the types map fails immediately with
an undeclared-field error naming the field, and no `Param` is produced. -/
theorem spec_c4 (cm : CastingMap) (tm : TypesMap) (name value : String)
    (h : lookupField name tm = none) :
    parse_filter_param cm name value tm = Res.err (PErr.undeclaredField name) := by
  simp only [parse_filter_param, h]

/-- Witness for C4: the undeclared field `ghost` is rejected. -/
theorem spec_c4_witness :
    parse_filter_param default_casting_map "ghost" "1" [] =
      Res.err (PErr.undeclaredField "ghost") :=
  spec_c4 default_casting_map [] "ghost" "1" (by decide)

/-- C5: when an interval pattern is the one that matches and the field's
declared type is not interval-eligible, the parse fails with a
type-mismatch error naming the offending field; nothing is coerced. -/
theorem spec_c5 (cm : CastingMap) (tm : TypesMap) (name value : String)
    (t : FieldType) (pid : PatternId) (g : String)
    (ht : lookupField name tm = some t)
    (hni : t ∉ interval_types)
    (hfm : firstMatch patternList value = some (pid, g))
    (hpid : pid = PatternId.pIntOO ∨ pid = PatternId.pIntCO ∨
            pid = PatternId.pIntOC ∨ pid = PatternId.pIntCC) :
    parse_filter_param cm name value tm =
      Res.err (PErr.intervalTypeMismatch t name) := by
  have hint : ∀ ops, interval cm name g ops tm =
      Res.err (PErr.intervalTypeMismatch t name) := by
    intro ops
    simp only [interval, ht]
    rw [if_neg hni]
  simp only [parse_filter_param, ht, hfm]
  rcases hpid with h | h | h | h <;> subst h <;>
    simp only [applyHandler] <;> rw [hint]

/-- Witness for C5: `(1,2)` on the string-typed field `annotation` is a
type-mismatch error. -/
theorem spec_c5_witness :
    parse_filter_param default_casting_map "annotation" "(1,2)"
      [("annotation", FieldType.tStr)] =
      Res.err (PErr.intervalTypeMismatch FieldType.tStr "annotation") :=
  spec_c5 default_casting_map [("annotation", FieldType.tStr)] "annotation" "(1,2)"
    FieldType.tStr PatternId.pIntOO "1,2" (by decide) (by decide) (by decide)
    (Or.inl rfl)

/-- C6: when an interval pattern matches but the bracket interior does
not split into exactly two comma-separated components, the parse fails
with a malformed-input error and no `Param` is produced. -/
theorem spec_c6 (cm : CastingMap) (tm : TypesMap) (name value : String)
    (t : FieldType) (pid : PatternId) (g : String)
    (ht : lookupField name tm = some t)
    (hit : t ∈ interval_types)
    (hfm : firstMatch patternList value = some (pid, g))
    (hpid : pid = PatternId.pIntOO ∨ pid = PatternId.pIntCO ∨
            pid = PatternId.pIntOC ∨ pid = PatternId.pIntCC)
    (hc : (pySplit ',' g).length ≠ 2) :
    parse_filter_param cm name value tm = Res.err (PErr.rangeCount name) := by
  have hint : ∀ ops, interval cm name g ops tm = Res.err (PErr.rangeCount name) := by
    intro ops
    simp only [interval, ht]
    rw [if_pos hit]
    cases hd : pySplit ',' g with
    | nil => rfl
    | cons x l =>
      cases l with
      | nil => rfl
      | cons y l2 =>
        cases l2 with
        | nil => rw [hd] at hc; simp at hc
        | cons z l3 => rfl
  simp only [parse_filter_param, ht, hfm]
  rcases hpid with h | h | h | h <;> subst h <;>
    simp only [applyHandler] <;> rw [hint]

/-- Witness for C6: `amount=(1,2,3)` has three components and is
rejected. -/
theorem spec_c6_witness :
    parse_filter_param default_casting_map "amount" "(1,2,3)"
      [("amount", FieldType.tInt)] =
      Res.err (PErr.rangeCount "amount") :=
  spec_c6 default_casting_map [("amount", FieldType.tInt)] "amount" "(1,2,3)"
    FieldType.tInt PatternId.pIntOO "1,2,3" (by decide) (by decide) (by decide)
    (Or.inl rfl) (by decide)

/-- C7: in a string query, a segment lacking the name/value separator
makes consumption of the output fail with a malformed-input error (the
global no-separator check, or the unpacking of the bad segment), and that
segment never produces a `Param`. -/
theorem spec_c7 (cm : CastingMap) (schema : ParsingSchema) (tm : TypesMap)
    (q bad : String) (pre post : List String) (r : List Param)
    (hsplit : pySplit '&' q = pre ++ bad :: post)
    (hbad : pySplit '=' bad = [bad])
    (hok : parseSplitPairs cm schema tm (pre.map (fun seg => pySplit '=' seg)) = Res.ok r) :
    callString cm schema q tm = Res.err PErr.noSeparator
    ∨ callString cm schema q tm = Res.err PErr.unpackError := by
  by_cases he : q.toList.contains '=' = true
  · right
    simp only [callString, he, if_true]
    rw [hsplit, List.map_append, List.map_cons, parseSplitPairs_append, hok, hbad]
    rfl
  · left
    simp only [callString]
    rw [if_neg he]

/-- Witness for C7: in `amount=1&b` the segment `b` has no separator and
consuming the output fails. -/
theorem spec_c7_witness :
    callString default_casting_map {} "amount=1&b" [("amount", FieldType.tInt)] =
      Res.err PErr.noSeparator
    ∨ callString default_casting_map {} "amount=1&b" [("amount", FieldType.tInt)] =
      Res.err PErr.unpackError :=
  spec_c7 default_casting_map {} [("amount", FieldType.tInt)] "amount=1&b" "b"
    ["amount=1"] [] [Param.mk "amount" (Clause.EQ (Value.vInt 1))]
    (by decide) (by decide) (by decide)

/-- C8: the order handler emits one `Param` per comma-separated name in
input order; a leading `-` selects `DESC` and is stripped from the name,
otherwise the direction is `ASC`; the priority equals the position, and
duplicate names are kept with their own positions. -/
theorem spec_c8 (names : String) (i : Nat) (n : String)
    (hn : (pySplit ',' names).get? i = some n) :
    (parse_order_param names).length = (pySplit ',' names).length
    ∧ (parse_order_param names).get? i = some (
        match n.toList with
        | '-' :: nm => Param.mk (String.mk nm) (Clause.DESC i)
        | _ => Param.mk n (Clause.ASC i)) := by
  constructor
  · exact orderLoop_length 0 _
  · unfold parse_order_param
    rw [orderLoop_get 0 i, hn]
    simp [Nat.zero_add]

/-- Witness for C8: `order_by=name,-amount` yields `ASC(0)` for `name`
and `DESC(1)` for `amount`. -/
theorem spec_c8_witness :
    (parse_order_param "name,-amount").length = 2
    ∧ (parse_order_param "name,-amount").get? 1 =
        some (Param.mk "amount" (Clause.DESC 1)) := by
  have h := spec_c8 "name,-amount" 1 "-amount" (by decide)
  exact ⟨h.1.trans (by decide), h.2.trans (by decide)⟩

/-- C9: pairs named by the configured limit or offset parameter bypass
the types map and the casting overrides entirely: the raw value goes to
builtin `int` untouched and yields `Limit(n)` or `Offset(n)`; order pairs
likewise never consult the types map. -/
theorem spec_c9 (cm cm2 : CastingMap) (schema : ParsingSchema)
    (tm tm2 : TypesMap) (u v w : String)
    (h1 : schema.limit ≠ schema.order_by)
    (h2 : schema.offset ≠ schema.order_by)
    (h3 : schema.offset ≠ schema.limit) :
    (parsePair cm schema tm schema.limit v =
      match pyInt v with
      | Res.ok n => Res.ok [Param.mk schema.limit (Clause.Limit n)]
      | Res.err e => Res.err e)
    ∧ (parsePair cm schema tm schema.offset w =
      match pyInt w with
      | Res.ok n => Res.ok [Param.mk schema.offset (Clause.Offset n)]
      | Res.err e => Res.err e)
    ∧ parsePair cm schema tm schema.limit v = parsePair cm2 schema tm2 schema.limit v
    ∧ parsePair cm schema tm schema.offset w = parsePair cm2 schema tm2 schema.offset w
    ∧ parsePair cm schema tm schema.order_by u = Res.ok (parse_order_param u)
    ∧ parsePair cm schema tm schema.order_by u = parsePair cm2 schema tm2 schema.order_by u := by
  have hlim : ∀ (cm3 : CastingMap) (tm3 : TypesMap),
      parsePair cm3 schema tm3 schema.limit v =
        match pyInt v with
        | Res.ok n => Res.ok [Param.mk schema.limit (Clause.Limit n)]
        | Res.err e => Res.err e := by
    intro cm3 tm3
    simp only [parsePair]
    rw [if_neg h1]
    simp
  have hoff : ∀ (cm3 : CastingMap) (tm3 : TypesMap),
      parsePair cm3 schema tm3 schema.offset w =
        match pyInt w with
        | Res.ok n => Res.ok [Param.mk schema.offset (Clause.Offset n)]
        | Res.err e => Res.err e := by
    intro cm3 tm3
    simp only [parsePair]
    rw [if_neg h2, if_neg h3]
    simp
  have hord : ∀ (cm3 : CastingMap) (tm3 : TypesMap),
      parsePair cm3 schema tm3 schema.order_by u = Res.ok (parse_order_param u) := by
    intro cm3 tm3
    simp only [parsePair]
    simp
  exact ⟨hlim cm tm, hoff cm tm,
    (hlim cm tm).trans (hlim cm2 tm2).symm,
    (hoff cm tm).trans (hoff cm2 tm2).symm,
    hord cm tm,
    (hord cm tm).trans (hord cm2 tm2).symm⟩

/-- Witness for C9: with the default schema and an empty types map, a
`limit` pair still parses, via builtin `int`. -/
theorem spec_c9_witness :
    parsePair default_casting_map {} [] "limit" "10" =
      Res.ok [Param.mk "limit" (Clause.Limit 10)] := by
  have h := spec_c9 default_casting_map [] {} [] [] "a" "10" "3"
    (by decide) (by decide) (by decide)
  exact h.1.trans (by decide)

/-- C10: the value grammar is total over declared fields — the catch-all
pattern matches any value, so the scan always finds a pattern and the
no-pattern branch (Python returning `None`) is unreachable. -/
theorem spec_c10 (cm : CastingMap) (tm : TypesMap) (name value : String)
    (h : (lookupField name tm).isSome) :
    (firstMatch patternList value).isSome
    ∧ parse_filter_param cm name value tm ≠ Res.ok none := by
  have htot : (firstMatch patternList value).isSome := by
    apply firstMatch_isSome_of
    exact ⟨PatternId.pEq, by decide, rfl⟩
  refine ⟨htot, ?_⟩
  cases hl : lookupField name tm with
  | none => rw [hl] at h; simp at h
  | some t =>
    simp only [parse_filter_param, hl]
    cases hfm : firstMatch patternList value with
    | none => rw [hfm] at htot; simp at htot
    | some pg =>
      obtain ⟨pid, g⟩ := pg
      show (match applyHandler cm tm pid name g with
            | Res.ok p => Res.ok (some p)
            | Res.err e => Res.err e) ≠ Res.ok none
      cases applyHandler cm tm pid name g <;> simp

/-- Witness for C10: a declared string field with an ordinary literal
value is matched (by the catch-all) and yields a `Param`. -/
theorem spec_c10_witness :
    (firstMatch patternList "hello").isSome
    ∧ parse_filter_param default_casting_map "name" "hello"
        [("name", FieldType.tStr)] ≠ Res.ok none :=
  spec_c10 default_casting_map [("name", FieldType.tStr)] "name" "hello" (by decide)

end Zodchy
